import Mathlib

/-!
Verification development for the AI-Girlfriend VRM front-end.

The repository ships two builds of `main.js`:
  * `src/main.js`          — the build with per-character lip sync (`mainParse` below),
  * `src/unnamed/part_003` — the build with word/vowel lip sync, a TTS audio queue,
                             and the blink state machine (`TextPhoneme.parse`,
                             `ttsPlayer`, `face` below).

All machine floats are modelled as exact rationals (`ℚ`); decimal literals in the
source such as `0.08` become the corresponding rationals.  JavaScript's `Infinity`
has no counterpart in `ℚ`, so the guard `targetDuration !== Infinity` is dropped
(it excludes no rational).
-/

/-- The five VRM mouth blendshapes `aa / ih / ou / ee / oh` (`face.LIP_SHAPES`). -/
inductive LipShape
  | aa | ih | ou | ee | oh
deriving DecidableEq, Repr

/-- One lip-sync event as produced by `TextPhoneme.parse`:
`{ shape: string|null, weight, duration }`. -/
structure PhonEvent where
  shape : Option LipShape
  weight : ℚ
  duration : ℚ
deriving DecidableEq, Repr

namespace TextPhoneme

/-- Characters matched by the split/punctuation class
`[\s.,!?~…\-;:'"()]` of `part_003`'s `TextPhoneme.parse` (the common
whitespace characters of `\s` plus the listed punctuation). -/
def isSep (c : Char) : Bool :=
  c = ' ' ∨ c = '\t' ∨ c = '\n' ∨ c = '\r' ∨ c = '\x0b' ∨ c = '\x0c' ∨
  c.toNat = 160 ∨ c = '.' ∨ c = ',' ∨ c = '!' ∨ c = '?' ∨ c = '~' ∨ c = '…' ∨
  c = '-' ∨ c = ';' ∨ c = ':' ∨ c.toNat = 39 ∨ c.toNat = 34 ∨ c = '(' ∨ c = ')'

/-- Characters matched by `/[.,!?~…]/` — "strong" punctuation giving a long pause. -/
def isStrong (c : Char) : Bool :=
  c = '.' ∨ c = ',' ∨ c = '!' ∨ c = '?' ∨ c = '~' ∨ c = '…'

/-- Characters matched by `/[aeiouyAEIOUY]/` — the syllable beats of a word. -/
def isVowel (c : Char) : Bool :=
  c = 'a' ∨ c = 'e' ∨ c = 'i' ∨ c = 'o' ∨ c = 'u' ∨ c = 'y' ∨
  c = 'A' ∨ c = 'E' ∨ c = 'I' ∨ c = 'O' ∨ c = 'U' ∨ c = 'Y'

/-- `CHAR_MAP` restricted to the vowel characters scanned by the word branch;
the fallback `['aa', 0.6]` mirrors `this.CHAR_MAP[v] || … || ['aa', 0.6]`. -/
def vowelShape (c : Char) : LipShape × ℚ :=
  if c = 'a' ∨ c = 'A' then (.aa, 85/100)
  else if c = 'e' ∨ c = 'E' then (.ee, 55/100)
  else if c = 'i' ∨ c = 'I' then (.ih, 50/100)
  else if c = 'y' ∨ c = 'Y' then (.ih, 35/100)
  else if c = 'o' ∨ c = 'O' then (.oh, 70/100)
  else if c = 'u' ∨ c = 'U' then (.ou, 50/100)
  else (.aa, 60/100)

/-- `text.split(/([\s.,!?~…\-;:'"()]+)/)` keeps the separators thanks to the
capture group and emits empty strings only at run boundaries, which the parse
loop skips with `if (!token) continue`; the surviving tokens are exactly the
maximal runs of separator / non-separator characters, in order. -/
def tokenize : List Char → List (List Char)
  | [] => []
  | c :: cs =>
    match tokenize cs with
    | [] => [[c]]
    | [] :: ts => [c] :: [] :: ts
    | (d :: t) :: ts =>
      if isSep c = isSep d then (c :: d :: t) :: ts else [c] :: (d :: t) :: ts

/-- The events one token contributes in the loop body of `part_003`'s
`TextPhoneme.parse` (lines 123–158). -/
def tokenEvents (t : List Char) : List PhonEvent :=
  if t.isEmpty then []
  else if t.all isSep then
    [⟨none, 0, if t.any isStrong then 3/10 else 8/100⟩]
  else
    (match t.filter isVowel with
     | [] => [⟨some .ih, 4/10, 15/100⟩]
     | v :: vs => (v :: vs).flatMap fun c =>
         [⟨some (vowelShape c).1, (vowelShape c).2, 12/100⟩, ⟨none, 1/10, 3/100⟩])
    ++ [⟨none, 0, 6/100⟩]

/-- Total of the event durations (the running `totalDur` of the source). -/
def sumDur (evs : List PhonEvent) : ℚ :=
  (evs.map PhonEvent.duration).sum

/-- `TextPhoneme.parse(text, targetDuration = 0)` of `part_003` (lines 116–167):
tokenize, emit events per token, then scale every duration by
`targetDuration / totalDur` when `targetDuration > 0 && targetDuration !== Infinity
&& totalDur > 0`. -/
def parse (text : List Char) (targetDuration : ℚ) : List PhonEvent :=
  let events := (tokenize text).flatMap tokenEvents
  let totalDur := sumDur events
  if 0 < targetDuration ∧ 0 < totalDur then
    events.map fun ev => { ev with duration := ev.duration * (targetDuration / totalDur) }
  else
    events

end TextPhoneme

namespace MainPhoneme

/-- Characters matched by `/[.,!?~…\-;:'"()]/` in `src/main.js` `parse`. -/
def isMainPunct (c : Char) : Bool :=
  c = '.' ∨ c = ',' ∨ c = '!' ∨ c = '?' ∨ c = '~' ∨ c = '…' ∨ c = '-' ∨
  c = ';' ∨ c = ':' ∨ c.toNat = 39 ∨ c.toNat = 34 ∨ c = '(' ∨ c = ')'

/-- `CHAR_MAP[ch] ?? CHAR_MAP.default` of `src/main.js` for the characters that
reach the lookup (space/newline and punctuation are intercepted before it, so
their `[null, 0]` entries are dead code and omitted here). -/
def charMap (c : Char) : Option LipShape × ℚ :=
  if c = 'a' ∨ c = 'A' then (some .aa, 85/100)
  else if c = 'e' ∨ c = 'E' then (some .ee, 55/100)
  else if c = 'i' ∨ c = 'I' then (some .ih, 50/100)
  else if c = 'y' ∨ c = 'Y' then (some .ih, 35/100)
  else if c = 'o' ∨ c = 'O' then (some .oh, 70/100)
  else if c = 'u' ∨ c = 'U' then (some .ou, 50/100)
  else if c = 'b' ∨ c = 'B' then (some .aa, 15/100)
  else if c = 'm' ∨ c = 'M' then (some .aa, 10/100)
  else if c = 'p' ∨ c = 'P' then (some .aa, 12/100)
  else if c = 'f' ∨ c = 'F' ∨ c = 'v' ∨ c = 'V' then (some .ih, 20/100)
  else if c = 'w' ∨ c = 'W' then (some .ou, 30/100)
  else (some .aa, 18/100)

/-- `CHAR_DURATION = 0.09` of `src/main.js`. -/
def CHAR_DURATION : ℚ := 9/100

/-- `SPACE_DURATION = 0.07` of `src/main.js`. -/
def SPACE_DURATION : ℚ := 7/100

/-- The event one character contributes in `src/main.js` `TextPhoneme.parse`
(lines 113–134): space/newline → pause, punctuation → half-length pause,
non-ASCII (code point > 127) → brief neutral event, else the `CHAR_MAP` shape. -/
def charEvent (c : Char) : PhonEvent :=
  if c = ' ' ∨ c = '\n' then ⟨none, 0, SPACE_DURATION⟩
  else if isMainPunct c then ⟨none, 0, CHAR_DURATION * (5/10)⟩
  else if 127 < c.toNat then ⟨none, 0, CHAR_DURATION * (4/10)⟩
  else ⟨(charMap c).1, (charMap c).2, CHAR_DURATION⟩

/-- `TextPhoneme.parse(text)` of `src/main.js`: one event per character. -/
def parse (text : List Char) : List PhonEvent :=
  text.map charEvent

end MainPhoneme

/-!
## Blend-weight updates (`face.update`, sections 1 and 2)

Both layers move every tracked weight by
`current += (target - current) * Math.min(1, delta * rate)`;
the expression layer additionally snaps when `|target - current| < 0.001`.
Rates: expression `5.5` (both builds), lip `14` (`src/main.js`) / `12` (`part_003`).
-/

/-- One lerp update of a tracked blend weight. -/
def blendStep (rate δ cur tgt : ℚ) : ℚ :=
  cur + (tgt - cur) * min 1 (δ * rate)

/-- Expression-layer rate: `exprSpeed = Math.min(1, delta * 5.5)`. -/
def exprRate : ℚ := 11/2

/-- Lip-layer rate of `src/main.js`: `lipSpeed = Math.min(1, delta * 14)`. -/
def lipRateMain : ℚ := 14

/-- Lip-layer rate of `part_003`: `lipSpeed = Math.min(1, delta * 12)`. -/
def lipRatePart3 : ℚ := 12

/-- The expression-layer loop body including the snap
`if (Math.abs(tgt - cur) < 0.001) { current = tgt; continue; }`. -/
def exprStep (δ cur tgt : ℚ) : ℚ :=
  if |tgt - cur| < 1/1000 then tgt else blendStep exprRate δ cur tgt

/-!
## Expression presets (`face.EXPR_NAMES`, `face.init`, `face.setEmotion`)
-/

/-- The distinct blendshape names appearing as values of `face.EXPR_NAMES`. -/
inductive ExprShape
  | happy | sad | angry | surprised | relaxed | neutral
deriving DecidableEq, Repr

namespace Face

/-- `this.EXPR_NAMES[key] || 'neutral'`. -/
def exprName (key : String) : ExprShape :=
  if key = "happy" then .happy
  else if key = "sad" then .sad
  else if key = "angry" then .angry
  else if key = "surprised" then .surprised
  else if key = "thinking" then .relaxed
  else if key = "neutral" then .neutral
  else if key = "excited" then .happy
  else if key = "worried" then .sad
  else if key = "love" then .happy
  else .neutral

/-- The expression-layer target state: `_exprTarget` (per shape) and `_activeExpr`. -/
structure ExprState where
  target : ExprShape → ℚ
  active : ExprShape

/-- The module-level initial values: `_exprTarget = {}` (lookups default to 0)
and `_activeExpr = 'neutral'`. -/
def pageLoadExpr : ExprState :=
  { target := fun _ => 0, active := .neutral }

/-- `face.init` (part_003 lines 442–453): zero every preset target, then
`_exprTarget['neutral'] = 1`.  `_activeExpr` is NOT reassigned. -/
def initExpr (s : ExprState) : ExprState :=
  { target := fun n => if n = .neutral then 1 else 0, active := s.active }

/-- `face.setEmotion` (part_003 lines 456–471): map the key through
`EXPR_NAMES`, return unchanged if the preset is already active, else fade the
previous target to 0, make the preset active and fade its target to 1. -/
def setEmotion (key : String) (s : ExprState) : ExprState :=
  let preset := exprName key
  if preset = s.active then s
  else
    { target := fun n => if n = preset then 1 else if n = s.active then 0 else s.target n,
      active := preset }

/-- The speech-related face state: expression targets plus the lip-sync fields
`_speaking`, `_phonQueue` and `_lipTarget`. -/
structure FaceSt where
  expr : ExprState
  speaking : Bool
  phonQueue : List PhonEvent
  lipTarget : LipShape → ℚ

/-- `face.stopSpeaking`: stop, drop the phoneme queue, close the mouth
(`LIP_SHAPES.forEach(n => _lipTarget[n] = 0)`). -/
def stopSpeaking (f : FaceSt) : FaceSt :=
  { f with speaking := false, phonQueue := [], lipTarget := fun _ => 0 }

/-- `face.startSpeaking(text, duration)`: rebuild the phoneme queue via
`TextPhoneme.parse` and clear all lip targets. -/
def startSpeaking (text : List Char) (dur : ℚ) (f : FaceSt) : FaceSt :=
  { f with speaking := true, phonQueue := TextPhoneme.parse text dur,
           lipTarget := fun _ => 0 }

/-- `if (emotion) face.setEmotion(emotion)` in the queue's `playing` handler. -/
def applyEmotion (e : Option String) (f : FaceSt) : FaceSt :=
  match e with
  | some key => { f with expr := setEmotion key f.expr }
  | none => f

end Face

/-!
## The TTS audio queue (`ttsPlayer`, part_003 lines 698–765)

An `Item` is one enqueued `{ b64, text, emotion }`.  Whether `b64ToObjectUrl`
succeeds is a deterministic property of the payload, modelled by a predicate
`dk : String → Bool` passed to every operation ("decodes ok").
-/

/-- One queued TTS utterance. -/
structure Item where
  b64 : String
  text : List Char
  emotion : Option String
deriving DecidableEq, Repr

/-- The queue's mutable fields: `_queue`, `_playing`, `_currentAudio`
(`none` when no audio element is installed) and whether the
`returnToNeutral` timeout `_neutralTimer` is pending. -/
structure TtsSt where
  queue : List Item
  playing : Bool
  current : Option Item
  neutralTimer : Bool
deriving DecidableEq, Repr

/-- The state the queue operations touch: the queue itself, the face, and the
list of body actions handed to the animation mixer (for `ws._handle`). -/
structure AppSt where
  tts : TtsSt
  face : Face.FaceSt
  actions : List String

/-- `ttsPlayer._playNext` (lines 710–756) up to the asynchronous audio events:
an empty queue stops playback, stops speaking and arms the neutral timer; a
decode failure (`catch` around `b64ToObjectUrl`) drops the item and retries the
rest; a successful decode installs the item as current and starts its playback.
`cur0` is the incoming `_currentAudio`, untouched on the empty-queue path. -/
def playNextAux (dk : String → Bool) (nt : Bool) (cur0 : Option Item) :
    List Item → Face.FaceSt → TtsSt × Face.FaceSt
  | [], f => (⟨[], false, cur0, true⟩, Face.stopSpeaking f)
  | it :: rest, f =>
    if dk it.b64 then (⟨rest, true, some it, nt⟩, f)
    else playNextAux dk nt cur0 rest f

/-- `ttsPlayer.enqueue` (lines 704–708): cancel the pending neutral timer, push
the item, and start playing only if nothing is playing. -/
def enqueue (dk : String → Bool) (it : Item) (s : AppSt) : AppSt :=
  let t1 : TtsSt := { s.tts with neutralTimer := false, queue := s.tts.queue ++ [it] }
  if t1.playing then { s with tts := t1 }
  else
    let r := playNextAux dk t1.neutralTimer t1.current t1.queue s.face
    { s with tts := r.1, face := r.2 }

/-- The `ended` handler (lines 733–738): stop speaking, release the object URL,
drop `_currentAudio`, advance. -/
def onEnded (dk : String → Bool) (s : AppSt) : AppSt :=
  let f1 := Face.stopSpeaking s.face
  let t1 : TtsSt := { s.tts with current := none }
  let r := playNextAux dk t1.neutralTimer t1.current t1.queue f1
  { s with tts := r.1, face := r.2 }

/-- The `error` handler (lines 740–746): same body as the `ended` handler. -/
def onAudioError (dk : String → Bool) (s : AppSt) : AppSt :=
  let f1 := Face.stopSpeaking s.face
  let t1 : TtsSt := { s.tts with current := none }
  let r := playNextAux dk t1.neutralTimer t1.current t1.queue f1
  { s with tts := r.1, face := r.2 }

/-- The `play().catch` handler (lines 748–755): as the `ended` handler plus
`_playing = false` before advancing (overwritten by `_playNext`). -/
def onPlayFail (dk : String → Bool) (s : AppSt) : AppSt :=
  let f1 := Face.stopSpeaking s.face
  let t1 : TtsSt := { s.tts with current := none, playing := false }
  let r := playNextAux dk t1.neutralTimer t1.current t1.queue f1
  { s with tts := r.1, face := r.2 }

/-- The `playing` handler (lines 727–731): apply the item's emotion and start
text-driven lip sync with the measured duration `dur`.  The handler is attached
to one audio element; once `clear()` has paused and dropped that element
(`current = none`) the browser never fires `playing` for it again, so the event
is modelled only for the element still installed as `_currentAudio`. -/
def onPlaying (dur : ℚ) (s : AppSt) : AppSt :=
  match s.tts.current with
  | none => s
  | some it =>
    { s with face := Face.startSpeaking it.text dur (Face.applyEmotion it.emotion s.face) }

/-- `ttsPlayer.clear` (lines 758–765): drop the queue, pause and drop the
current audio, stop speaking, cancel the neutral timer, stop playing. -/
def clear (s : AppSt) : AppSt :=
  { s with
    tts := { queue := [], playing := false, current := none, neutralTimer := false },
    face := Face.stopSpeaking s.face }

/-!
## The WebSocket client (`ws`, part_003 lines 770–851 and `src/main.js` 411–466)
-/

/-- An inbound message as read by `ws._handle`; `none` models an absent (or
falsy, for the `if (cmd.audioB64)` / `else if (cmd.emotion)` tests) field. -/
structure DialogueMsg where
  type : String
  text : Option (List Char)
  emotion : Option String
  audioB64 : Option String
  action : Option String

/-- `ws._handle` of part_003 (lines 793–834), subtitle DOM writes aside:
non-`dialogue` messages do nothing; with audio the triple goes to the queue;
without audio an emotion applies immediately; an `action` field is handed to
`handleAction`, which plays the resolved clip (modelled by appending to
`actions`), independent of the audio branch. -/
def wsHandle (dk : String → Bool) (cmd : DialogueMsg) (s : AppSt) : AppSt :=
  if cmd.type ≠ "dialogue" then s
  else
    let s1 :=
      match cmd.audioB64 with
      | some a => enqueue dk ⟨a, cmd.text.getD [], cmd.emotion⟩ s
      | none =>
        match cmd.emotion with
        | some e => { s with face := { s.face with expr := Face.setEmotion e s.face.expr } }
        | none => s
    match cmd.action with
    | some act => { s1 with actions := s1.actions ++ [act] }
    | none => s1

/-- `ws.send` of part_003 (lines 782–791): when `readyState === OPEN`
(`sockOpen = true`) it clears the TTS queue, transmits the user message and
shows the thinking emotion; otherwise nothing happens at all.  The second
component lists the texts actually transmitted. -/
def wsSend (sockOpen : Bool) (text : List Char) (s : AppSt) : AppSt × List (List Char) :=
  if sockOpen then
    let s1 := clear s
    ({ s1 with face := { s1.face with expr := Face.setEmotion "thinking" s1.face.expr } },
     [text])
  else (s, [])

/-- `ws.send` of `src/main.js` (lines 423–426): transmit when open, else
nothing; no queue clearing and no emotion change in this build. -/
def mainWsSend (sockOpen : Bool) (text : List Char) (s : AppSt) : AppSt × List (List Char) :=
  if sockOpen then (s, [text]) else (s, [])

/-!
## Blink machines

`part_003` (`face._handleExpressions`, lines 504–530) is an explicit
idle/closing/opening machine; `src/main.js` (lines 299–319) drives a single
phase through close / hold / open windows.
-/

/-- The three values of `_blinkState` in part_003. -/
inductive BPhase
  | idle | closing | opening
deriving DecidableEq, Repr

/-- part_003 blink fields: `_blinkTimer`, `_blinkProg`, `_blinkDur`, `_blinkState`. -/
structure Blink3 where
  timer : ℚ
  prog : ℚ
  dur : ℚ
  phase : BPhase
deriving DecidableEq, Repr

/-- One frame of the part_003 blink machine: the countdown runs every frame;
on expiry the state re-arms to `closing` with a fresh interval `nt`
(`2 + Math.random() * 4`) and `_blinkDur = 0.08`; a non-idle state then
advances `_blinkProg` by `delta / _blinkDur`, crossing to `opening` at 1
(clamped) and back to `idle` at 2. -/
def blink3Step (δ nt : ℚ) (s : Blink3) : Blink3 :=
  let t1 := s.timer - δ
  let s1 : Blink3 :=
    if t1 ≤ 0 then ⟨nt, 0, 2/25, .closing⟩ else ⟨t1, s.prog, s.dur, s.phase⟩
  if s1.phase = .idle then s1
  else
    let p := s1.prog + δ / s1.dur
    if s1.phase = .closing then
      if 1 ≤ p then ⟨s1.timer, 1, s1.dur, .opening⟩ else ⟨s1.timer, p, s1.dur, .closing⟩
    else
      if 2 ≤ p then ⟨s1.timer, 0, s1.dur, .idle⟩ else ⟨s1.timer, p, s1.dur, .opening⟩

/-- Inductive invariant of the part_003 blink machine under frame deltas
`0 < δ ≤ 0.05` (the render loop caps `delta` at 50 ms) and re-arm intervals
`nt ≥ 2`: while blinking, `_blinkDur` is 0.08, `_blinkProg` sits in the
phase's window and enough countdown remains that the timer cannot expire
before the blink completes. -/
def Blink3Inv (s : Blink3) : Prop :=
  s.phase = .idle ∨
  (s.phase = .closing ∧ s.dur = 2/25 ∧ 0 ≤ s.prog ∧ s.prog ≤ 1 ∧
    39/20 ≤ s.timer + (2/25) * s.prog) ∨
  (s.phase = .opening ∧ s.dur = 2/25 ∧ 1 ≤ s.prog ∧ s.prog ≤ 2 ∧
    19/10 ≤ s.timer + (2/25) * s.prog)

/-- `src/main.js` blink fields: `_blinkTimer`, `_blinkCooldown`, `_blinkPhase`,
`_blinking`. -/
structure BlinkM where
  timer : ℚ
  cooldown : ℚ
  phase : ℚ
  blinking : Bool
deriving DecidableEq, Repr

/-- `CLOSE = 0.07` of the `src/main.js` blink. -/
def mainBlinkCLOSE : ℚ := 7/100

/-- `HOLD = 0.04` of the `src/main.js` blink. -/
def mainBlinkHOLD : ℚ := 1/25

/-- `OPEN = 0.09` of the `src/main.js` blink. -/
def mainBlinkOPEN : ℚ := 9/100

/-- `TOTAL = 0.20` of the `src/main.js` blink: the phase at which the cycle
ends and `_blinking` resets. -/
def mainBlinkTOTAL : ℚ := 1/5

/-- The eyelid weight `bv` the `src/main.js` blink computes from `_blinkPhase`:
ramp up over `CLOSE`, hold fully closed over `HOLD`, ramp down over `OPEN`. -/
def mainBlinkValue (phase : ℚ) : ℚ :=
  if phase < mainBlinkCLOSE then phase / mainBlinkCLOSE
  else if phase < mainBlinkCLOSE + mainBlinkHOLD then 1
  else if phase < mainBlinkTOTAL then
    1 - (phase - mainBlinkCLOSE - mainBlinkHOLD) / mainBlinkOPEN
  else 0

/-- One frame of the `src/main.js` blink (lines 299–314): the idle timer
accrues; when it passes the cooldown (and no blink is running) a blink starts
with a fresh cooldown `nc`; a running blink advances `_blinkPhase` and ends
once the phase passes `TOTAL`. -/
def mainBlinkStep (δ nc : ℚ) (s : BlinkM) : BlinkM :=
  let t := s.timer + δ
  let s1 : BlinkM :=
    if ¬ s.blinking ∧ s.cooldown ≤ t then ⟨0, nc, 0, true⟩ else ⟨t, s.cooldown, s.phase, s.blinking⟩
  if s1.blinking then
    let p := s1.phase + δ
    ⟨s1.timer, s1.cooldown, p, decide (p < mainBlinkTOTAL)⟩
  else s1

/-- The "exactly one active expression" property of the expression layer: the
active preset's target weight is 1 and every other preset's target is 0. -/
def Face.SingleActive (s : Face.ExprState) : Prop :=
  s.target s.active = 1 ∧ ∀ n : ExprShape, n ≠ s.active → s.target n = 0

/-- A sample mid-playback state: one audio item currently playing, a happy
expression active, used to exercise `clear` and `enqueue` concretely. -/
def playingSt : AppSt :=
  { tts := { queue := [], playing := true,
             current := some ⟨"QUJD", "Hi".toList, some "happy"⟩, neutralTimer := false },
    face := { expr := { target := fun n => if n = .happy then 1 else 0, active := .happy },
              speaking := true, phonQueue := [], lipTarget := fun _ => 0 },
    actions := [] }

/-- A second utterance arriving while `playingSt` is still playing. -/
def secondItem : Item := ⟨"REVG", "there".toList, some "sad"⟩

/-- A quiescent state: nothing queued, nothing playing, neutral face. -/
def emptySt : AppSt :=
  { tts := { queue := [], playing := false, current := none, neutralTimer := false },
    face := { expr := { target := fun n => if n = .neutral then 1 else 0, active := .neutral },
              speaking := false, phonQueue := [], lipTarget := fun _ => 0 },
    actions := [] }

/-- A sample inbound dialogue message carrying text, emotion, audio and an
action at the same time. -/
def sampleDialogueCmd : DialogueMsg :=
  { type := "dialogue", text := some "Hi".toList, emotion := some "happy",
    audioB64 := some "QUJD", action := some "Dance/x.fbx" }

/-!
## Helper lemmas about the phoneme scheduler
-/

namespace TextPhoneme

theorem sumDur_nil : sumDur [] = 0 := rfl

theorem sumDur_cons (e : PhonEvent) (evs : List PhonEvent) :
    sumDur (e :: evs) = e.duration + sumDur evs := by
  simp [sumDur]

theorem sumDur_append (xs ys : List PhonEvent) :
    sumDur (xs ++ ys) = sumDur xs + sumDur ys := by
  simp [sumDur]

theorem sumDur_scale (evs : List PhonEvent) (k : ℚ) :
    sumDur (evs.map fun ev => { ev with duration := ev.duration * k }) = sumDur evs * k := by
  induction evs with
  | nil => simp [sumDur]
  | cons e evs ih =>
    rw [List.map_cons, sumDur_cons, sumDur_cons, ih]
    ring

theorem vowelEvents_nonneg (l : List Char) :
    0 ≤ sumDur (l.flatMap fun c =>
      [⟨some (vowelShape c).1, (vowelShape c).2, 12/100⟩, ⟨none, 1/10, 3/100⟩]) := by
  induction l with
  | nil => simp [sumDur]
  | cons c l ih =>
    rw [List.flatMap_cons, sumDur_append, sumDur_cons, sumDur_cons, sumDur_nil]
    norm_num
    linarith

theorem tokenEvents_pos (t : List Char) (ht : t ≠ []) : 0 < sumDur (tokenEvents t) := by
  unfold tokenEvents
  rw [if_neg (by simpa using ht)]
  by_cases hs : t.all isSep
  · rw [if_pos hs]
    by_cases hstr : t.any isStrong <;> simp [sumDur, hstr]
  · rw [if_neg hs, sumDur_append]
    rcases h : t.filter isVowel with _ | ⟨v, vs⟩ <;> simp only [h]
    · simp [sumDur]
      norm_num
    · have h1 := vowelEvents_nonneg (v :: vs)
      rw [sumDur_cons, sumDur_nil]
      linarith

theorem tokenEvents_nonneg (t : List Char) : 0 ≤ sumDur (tokenEvents t) := by
  rcases eq_or_ne t [] with rfl | h
  · simp [tokenEvents, sumDur]
  · exact le_of_lt (tokenEvents_pos t h)

theorem flatMap_tokenEvents_nonneg (ts : List (List Char)) :
    0 ≤ sumDur (ts.flatMap tokenEvents) := by
  induction ts with
  | nil => simp [sumDur]
  | cons t ts ih =>
    rw [List.flatMap_cons, sumDur_append]
    have := tokenEvents_nonneg t
    linarith

theorem tokenize_ne_nil (c : Char) (cs : List Char) : tokenize (c :: cs) ≠ [] := by
  unfold tokenize
  rcases tokenize cs with _ | ⟨t, ts⟩
  · simp
  · rcases t with _ | ⟨d, t⟩
    · simp
    · by_cases h : isSep c = isSep d <;> simp [h]

theorem tokenize_mem_ne_nil : ∀ (text : List Char) (t : List Char),
    t ∈ tokenize text → t ≠ [] := by
  intro text
  induction text with
  | nil => intro t ht; simp [tokenize] at ht
  | cons c cs ih =>
    intro t ht
    rw [tokenize] at ht
    rcases h : tokenize cs with _ | ⟨u, us⟩ <;> rw [h] at ht
    · simp at ht
      subst ht; simp
    · rcases u with _ | ⟨d, u⟩
      · exact absurd rfl (ih [] (h ▸ List.mem_cons_self _ _))
      · by_cases hc : isSep c = isSep d <;> simp only [if_pos, if_neg, hc, if_true, if_false] at ht
        · rcases List.mem_cons.mp ht with rfl | hmem
          · simp
          · exact ih _ (h ▸ List.mem_cons_of_mem _ hmem)
        · rcases List.mem_cons.mp ht with rfl | hmem
          · simp
          · exact ih _ (h ▸ hmem)

theorem parseEvents_pos (text : List Char) (h : text ≠ []) :
    0 < sumDur ((tokenize text).flatMap tokenEvents) := by
  rcases text with _ | ⟨c, cs⟩
  · exact absurd rfl h
  rcases h2 : tokenize (c :: cs) with _ | ⟨t, ts⟩
  · exact absurd h2 (tokenize_ne_nil c cs)
  rw [List.flatMap_cons, sumDur_append]
  have ht : t ≠ [] := tokenize_mem_ne_nil _ t (h2 ▸ List.mem_cons_self _ _)
  have hpos := tokenEvents_pos t ht
  have hnn := flatMap_tokenEvents_nonneg ts
  linarith

end TextPhoneme

/-- C1, amended: for every NONEMPTY text `T` and every positive (finite) target
duration `D`, the durations of the events returned by
`TextPhoneme.parse T D` sum exactly to `D` — `parse` scales every event's
duration by `D / totalDur`.  (On the empty text `parse` returns no events and
the sum is `0`, see the counterexample.) -/
theorem parse_scales_to_target_duration (text : List Char) (d : ℚ)
    (hd : 0 < d) (hne : text ≠ []) :
    TextPhoneme.sumDur (TextPhoneme.parse text d) = d := by
  have hpos := TextPhoneme.parseEvents_pos text hne
  unfold TextPhoneme.parse
  simp only []
  rw [if_pos ⟨hd, hpos⟩, TextPhoneme.sumDur_scale]
  field_simp

/-- C1, witness: on the text `"Hi there!"` with target duration 1.2 s the
scheduled events sum to exactly 1.2 s. -/
theorem parse_scales_to_target_duration_witness :
    TextPhoneme.sumDur (TextPhoneme.parse "Hi there!".toList (6/5)) = 6/5 :=
  parse_scales_to_target_duration _ _ (by norm_num) (by decide)

/-- C1, counterexample to the claim as stated ("for every text"): on the empty
text, `parse` returns no events even though `D = 1 > 0`, so the durations sum
to `0`, not `D`; the `totalDur > 0` guard in the source skips scaling. -/
theorem parse_empty_text_total_zero :
    TextPhoneme.parse [] 1 = [] ∧ TextPhoneme.sumDur (TextPhoneme.parse [] 1) ≠ 1 := by
  have h : TextPhoneme.parse [] 1 = [] := by
    norm_num [TextPhoneme.parse, TextPhoneme.tokenize, TextPhoneme.sumDur]
  exact ⟨h, by rw [h, TextPhoneme.sumDur_nil]; norm_num⟩

/-- C8, amended: parsing never fails on non-ASCII input in either build, and in
the `src/main.js` build every non-ASCII character (not already treated as
punctuation, like `…`) becomes a brief neutral event `⟨null, 0, 0.036⟩`.  In
the `part_003` build, however, a non-ASCII character is an ordinary word
character; a token consisting only of such characters takes the vowel-less
word branch and yields the default small-open mouth event (see the
counterexample). -/
theorem nonascii_chars_never_break_parse :
    (∀ c : Char, 127 < c.toNat → MainPhoneme.isMainPunct c = false →
       ¬(c = ' ' ∨ c = '\n') →
       MainPhoneme.charEvent c = ⟨none, 0, MainPhoneme.CHAR_DURATION * (4/10)⟩) ∧
    TextPhoneme.parse "😊".toList 0 =
      [⟨some .ih, 4/10, 15/100⟩, ⟨none, 0, 6/100⟩] := by
  constructor
  · intro c h1 h2 h3
    simp [MainPhoneme.charEvent, h1, h2, h3]
  · norm_num +decide [TextPhoneme.parse, TextPhoneme.tokenize, TextPhoneme.tokenEvents,
      TextPhoneme.sumDur, TextPhoneme.isSep, TextPhoneme.isVowel, TextPhoneme.isStrong,
      TextPhoneme.vowelShape]

/-- C8, witness: the emoji `😊` in the `src/main.js` build becomes the neutral
event with shape `null` and weight `0`. -/
theorem nonascii_chars_never_break_parse_witness :
    MainPhoneme.charEvent '😊' = ⟨none, 0, MainPhoneme.CHAR_DURATION * (4/10)⟩ :=
  nonascii_chars_never_break_parse.1 '😊' (by decide) (by decide) (by decide)

/-- C8, counterexample to the claim as stated: in the `part_003` build the
emoji-only text `"😊"` produces a MOUTH-shape event (`ih`, weight `0.4`), not a
neutral `⟨null, 0⟩` event — the emoji falls into the vowel-less word branch. -/
theorem part3_emoji_word_yields_mouth_event :
    (TextPhoneme.parse "😊".toList 0).head? = some ⟨some .ih, 4/10, 15/100⟩ ∧
    some LipShape.ih ≠ (none : Option LipShape) ∧ (4/10 : ℚ) ≠ 0 := by
  refine ⟨?_, by decide, by norm_num⟩
  norm_num +decide [TextPhoneme.parse, TextPhoneme.tokenize, TextPhoneme.tokenEvents,
    TextPhoneme.sumDur, TextPhoneme.isSep, TextPhoneme.isVowel, TextPhoneme.isStrong,
    TextPhoneme.vowelShape]

/-!
## Helper lemmas about the blend-weight update
-/

theorem blendFactor_nonneg (rate δ : ℚ) (h1 : 0 ≤ rate) (h2 : 0 ≤ δ) :
    0 ≤ min 1 (δ * rate) :=
  le_min (by norm_num) (mul_nonneg h2 h1)

theorem blendStep_between (rate δ cur tgt : ℚ) (h1 : 0 ≤ rate) (h2 : 0 ≤ δ) :
    min cur tgt ≤ blendStep rate δ cur tgt ∧ blendStep rate δ cur tgt ≤ max cur tgt := by
  have hs0 := blendFactor_nonneg rate δ h1 h2
  have hs1 : min 1 (δ * rate) ≤ 1 := min_le_left _ _
  unfold blendStep
  constructor
  · rcases le_total cur tgt with h | h
    · rw [min_eq_left h]; nlinarith
    · rw [min_eq_right h]; nlinarith
  · rcases le_total cur tgt with h | h
    · rw [max_eq_right h]; nlinarith
    · rw [max_eq_left h]; nlinarith

theorem blendStep_mem01 (rate δ cur tgt : ℚ) (h1 : 0 ≤ rate) (h2 : 0 ≤ δ)
    (hc0 : 0 ≤ cur) (hc1 : cur ≤ 1) (ht0 : 0 ≤ tgt) (ht1 : tgt ≤ 1) :
    0 ≤ blendStep rate δ cur tgt ∧ blendStep rate δ cur tgt ≤ 1 := by
  obtain ⟨hlo, hhi⟩ := blendStep_between rate δ cur tgt h1 h2
  constructor
  · exact le_trans (le_min hc0 ht0) hlo
  · exact le_trans hhi (max_le hc1 ht1)

theorem blendStep_dist_eq (rate δ cur tgt : ℚ) :
    tgt - blendStep rate δ cur tgt = (tgt - cur) * (1 - min 1 (δ * rate)) := by
  unfold blendStep; ring

theorem blendStep_dist_le (rate δ cur tgt : ℚ) (h1 : 0 ≤ rate) (h2 : 0 ≤ δ) :
    |tgt - blendStep rate δ cur tgt| ≤ |tgt - cur| := by
  have hs1 : min 1 (δ * rate) ≤ 1 := min_le_left _ _
  have hs0 := blendFactor_nonneg rate δ h1 h2
  rw [blendStep_dist_eq, abs_mul, abs_of_nonneg (by linarith : (0:ℚ) ≤ 1 - min 1 (δ * rate))]
  calc |tgt - cur| * (1 - min 1 (δ * rate)) ≤ |tgt - cur| * 1 :=
        mul_le_mul_of_nonneg_left (by linarith) (abs_nonneg _)
    _ = |tgt - cur| := mul_one _

theorem blendStep_iter_dist (rate δ cur tgt : ℚ) (n : ℕ) :
    tgt - (fun c => blendStep rate δ c tgt)^[n] cur =
      (tgt - cur) * (1 - min 1 (δ * rate)) ^ n := by
  induction n with
  | zero => simp
  | succ n ih =>
    rw [Function.iterate_succ_apply', blendStep_dist_eq, ih, pow_succ]
    ring

/-- C2: the blend update `current += (target - current) * min(1, delta * rate)`
is a convex combination, so from weights in `[0, 1]` every tick with `δ ≥ 0`
keeps `current` in `[0, 1]`, between `current` and `target` (no overshoot) and
no farther from `target`; the expression variant with its `< 0.001` snap obeys
the same bounds; any tick sequence with non-negative deltas stays in `[0, 1]`;
and repeated ticks at a fixed positive `δ` with a fixed target come within any
`ε > 0` of the target in finitely many ticks. -/
theorem blend_weight_convex_update_properties :
    (∀ rate δ cur tgt : ℚ, 0 ≤ rate → 0 ≤ δ →
       0 ≤ cur → cur ≤ 1 → 0 ≤ tgt → tgt ≤ 1 →
       (0 ≤ blendStep rate δ cur tgt ∧ blendStep rate δ cur tgt ≤ 1) ∧
       (min cur tgt ≤ blendStep rate δ cur tgt ∧ blendStep rate δ cur tgt ≤ max cur tgt) ∧
       |tgt - blendStep rate δ cur tgt| ≤ |tgt - cur|) ∧
    (∀ δ cur tgt : ℚ, 0 ≤ δ → 0 ≤ cur → cur ≤ 1 → 0 ≤ tgt → tgt ≤ 1 →
       (0 ≤ exprStep δ cur tgt ∧ exprStep δ cur tgt ≤ 1) ∧
       |tgt - exprStep δ cur tgt| ≤ |tgt - cur|) ∧
    (∀ (rate tgt : ℚ) (ds : List ℚ), 0 ≤ rate → (∀ d ∈ ds, 0 ≤ d) →
       ∀ cur : ℚ, 0 ≤ cur → cur ≤ 1 → 0 ≤ tgt → tgt ≤ 1 →
       0 ≤ ds.foldl (fun c d => blendStep rate d c tgt) cur ∧
       ds.foldl (fun c d => blendStep rate d c tgt) cur ≤ 1) ∧
    (∀ rate δ cur tgt ε : ℚ, 0 < rate → 0 < δ → 0 < ε →
       ∃ n : ℕ, |tgt - (fun c => blendStep rate δ c tgt)^[n] cur| < ε) := by
  refine ⟨?_, ?_, ?_, ?_⟩
  · intro rate δ cur tgt h1 h2 hc0 hc1 ht0 ht1
    exact ⟨blendStep_mem01 rate δ cur tgt h1 h2 hc0 hc1 ht0 ht1,
      blendStep_between rate δ cur tgt h1 h2,
      blendStep_dist_le rate δ cur tgt h1 h2⟩
  · intro δ cur tgt h2 hc0 hc1 ht0 ht1
    unfold exprStep
    by_cases h : |tgt - cur| < 1/1000
    · rw [if_pos h]
      exact ⟨⟨ht0, ht1⟩, by simp [abs_nonneg]⟩
    · rw [if_neg h]
      exact ⟨blendStep_mem01 exprRate δ cur tgt (by norm_num [exprRate]) h2 hc0 hc1 ht0 ht1,
        blendStep_dist_le exprRate δ cur tgt (by norm_num [exprRate]) h2⟩
  · intro rate tgt ds h1 hds
    induction ds with
    | nil => intro cur hc0 hc1 _ _; exact ⟨hc0, hc1⟩
    | cons d ds ih =>
      intro cur hc0 hc1 ht0 ht1
      have hd : 0 ≤ d := hds d (List.mem_cons_self _ _)
      obtain ⟨h0, hone⟩ := blendStep_mem01 rate d cur tgt h1 hd hc0 hc1 ht0 ht1
      exact ih (fun x hx => hds x (List.mem_cons_of_mem _ hx)) _ h0 hone ht0 ht1
  · intro rate δ cur tgt ε hr hδ hε
    have hs0 : 0 < min 1 (δ * rate) := lt_min one_pos (mul_pos hδ hr)
    have hs1 : min 1 (δ * rate) ≤ 1 := min_le_left _ _
    have hA : (0:ℚ) ≤ |tgt - cur| := abs_nonneg _
    obtain ⟨n, hn⟩ := exists_pow_lt_of_lt_one
      (div_pos hε (by linarith : (0:ℚ) < |tgt - cur| + 1))
      (by linarith : 1 - min 1 (δ * rate) < 1)
    refine ⟨n, ?_⟩
    rw [blendStep_iter_dist, abs_mul, abs_pow,
      abs_of_nonneg (by linarith : (0:ℚ) ≤ 1 - min 1 (δ * rate))]
    have hb1 : |tgt - cur| * (1 - min 1 (δ * rate)) ^ n ≤
        (|tgt - cur| + 1) * (1 - min 1 (δ * rate)) ^ n :=
      mul_le_mul_of_nonneg_right (by linarith)
        (pow_nonneg (by linarith : (0:ℚ) ≤ 1 - min 1 (δ * rate)) n)
    have hb2 : (|tgt - cur| + 1) * (1 - min 1 (δ * rate)) ^ n <
        (|tgt - cur| + 1) * (ε / (|tgt - cur| + 1)) :=
      mul_lt_mul_of_pos_left hn (by linarith)
    have hb3 : (|tgt - cur| + 1) * (ε / (|tgt - cur| + 1)) = ε := by
      field_simp
    linarith

/-- C2, witness: one lip-layer tick at the `part_003` rate 12 with `δ = 1/60`
from weight 0 toward target 1 stays in `[0, 1]`, does not overshoot, and gets
no farther from the target. -/
theorem blend_weight_convex_update_properties_witness :
    (0 ≤ blendStep lipRatePart3 (1/60) 0 1 ∧ blendStep lipRatePart3 (1/60) 0 1 ≤ 1) ∧
    (min 0 1 ≤ blendStep lipRatePart3 (1/60) 0 1 ∧
      blendStep lipRatePart3 (1/60) 0 1 ≤ max 0 1) ∧
    |1 - blendStep lipRatePart3 (1/60) 0 1| ≤ |1 - 0| :=
  blend_weight_convex_update_properties.1 lipRatePart3 (1/60) 0 1
    (by norm_num [lipRatePart3]) (by norm_num) (by norm_num) (by norm_num)
    (by norm_num) (by norm_num)

/-!
## Helper lemmas about the expression layer
-/

theorem setEmotion_preserves_single (key : String) (s : Face.ExprState)
    (h : Face.SingleActive s) : Face.SingleActive (Face.setEmotion key s) := by
  unfold Face.setEmotion
  by_cases hp : Face.exprName key = s.active
  · simpa [hp] using h
  · simp only [if_neg hp]
    constructor
    · simp
    · intro n hn
      simp only at hn ⊢
      rw [if_neg hn]
      by_cases hna : n = s.active
      · rw [if_pos hna]
      · rw [if_neg hna]
        exact h.2 n hna

theorem foldl_setEmotion_single (keys : List String) (s : Face.ExprState)
    (h : Face.SingleActive s) :
    Face.SingleActive (keys.foldl (fun s k => Face.setEmotion k s) s) := by
  induction keys generalizing s with
  | nil => exact h
  | cons k keys ih => exact ih _ (setEmotion_preserves_single k s h)

/-- C6, amended: starting from the first `face.init` after page load, any
sequence of `setEmotion` calls keeps exactly one expression target at weight 1
(the active one) with all others at 0, and a `setEmotion` whose preset equals
the currently active expression changes nothing.  The amendment: this holds
only as long as `face.init` is not run AGAIN while a non-neutral expression is
active — `init` rebuilds the targets but leaves `_activeExpr` stale, after
which one `setEmotion` can leave two targets at 1 (see the counterexample,
reachable through the model hot-swap dropdown of the part_003 build). -/
theorem single_active_expression_invariant :
    (∀ keys : List String,
       Face.SingleActive (keys.foldl (fun s k => Face.setEmotion k s)
         (Face.initExpr Face.pageLoadExpr))) ∧
    (∀ (key : String) (s : Face.ExprState), Face.exprName key = s.active →
       Face.setEmotion key s = s) := by
  constructor
  · intro keys
    refine foldl_setEmotion_single keys _ ⟨by simp [Face.initExpr, Face.pageLoadExpr], ?_⟩
    intro n hn
    simp only [Face.initExpr, Face.pageLoadExpr] at hn ⊢
    rw [if_neg hn]
  · intro key s hp
    simp [Face.setEmotion, hp]

/-- C6, witness: after `init` and the calls `setEmotion("happy")`,
`setEmotion("sad")`, exactly one target is 1; and `setEmotion("neutral")`
right after `init` is a no-op. -/
theorem single_active_expression_invariant_witness :
    Face.SingleActive (["happy", "sad"].foldl (fun s k => Face.setEmotion k s)
      (Face.initExpr Face.pageLoadExpr)) ∧
    Face.setEmotion "neutral" (Face.initExpr Face.pageLoadExpr) =
      Face.initExpr Face.pageLoadExpr :=
  ⟨single_active_expression_invariant.1 ["happy", "sad"],
   single_active_expression_invariant.2 "neutral" _ (by decide)⟩

/-- C6, counterexample to the claim as stated: `init`, `setEmotion("happy")`,
`init` again (model hot-swap), then `setEmotion("sad")` leaves BOTH the `sad`
and the `neutral` targets at weight 1 — more than one expression shape has
target weight 1 after a `setEmotion` call. -/
theorem reinit_breaks_single_active_expression :
    (Face.setEmotion "sad" (Face.initExpr
        (Face.setEmotion "happy" (Face.initExpr Face.pageLoadExpr)))).target .sad = 1 ∧
    (Face.setEmotion "sad" (Face.initExpr
        (Face.setEmotion "happy" (Face.initExpr Face.pageLoadExpr)))).target .neutral = 1 ∧
    ExprShape.sad ≠ ExprShape.neutral := by
  refine ⟨?_, ?_, by decide⟩ <;>
    simp [Face.setEmotion, Face.initExpr, Face.pageLoadExpr, Face.exprName]

/-!
## Helper lemmas about the audio queue
-/

theorem playNextAux_eq_dropWhile (dk : String → Bool) (nt : Bool) (cur0 : Option Item) :
    ∀ (q : List Item) (f : Face.FaceSt),
      playNextAux dk nt cur0 q f =
        match q.dropWhile (fun it => !dk it.b64) with
        | [] => (⟨[], false, cur0, true⟩, Face.stopSpeaking f)
        | it :: rest => (⟨rest, true, some it, nt⟩, f) := by
  intro q
  induction q with
  | nil => intro f; rfl
  | cons it rest ih =>
    intro f
    by_cases h : dk it.b64 <;> simp [playNextAux, List.dropWhile_cons, h, ih]

theorem playNextAux_face_expr (dk : String → Bool) (nt : Bool) (cur0 : Option Item) :
    ∀ (q : List Item) (f : Face.FaceSt),
      ((playNextAux dk nt cur0 q f).2).expr = f.expr := by
  intro q
  induction q with
  | nil => intro f; rfl
  | cons it rest ih =>
    intro f
    by_cases h : dk it.b64 <;> simp [playNextAux, h, ih, Face.stopSpeaking]

theorem enqueue_face_expr (dk : String → Bool) (it : Item) (s : AppSt) :
    (enqueue dk it s).face.expr = s.face.expr := by
  unfold enqueue
  by_cases h : s.tts.playing <;> simp [h, playNextAux_face_expr]

theorem enqueue_actions (dk : String → Bool) (it : Item) (s : AppSt) :
    (enqueue dk it s).actions = s.actions := by
  unfold enqueue
  by_cases h : s.tts.playing <;> simp [h]

/-- C3, amended: `clear()` empties the queue, aborts (pauses and drops) the
current audio, stops playback, resets the lip state — speaking flag off,
phoneme queue dropped, every lip-layer target 0 — and cancels the pending
return-to-neutral timer; a `playing` event of a discarded item has no further
effect; and `clear` is idempotent, so a call while nothing is playing leaves
the state unchanged.  The amendment: the EXPRESSION layer is NOT reset —
`clear` leaves the expression targets and active preset exactly as they were
(see the counterexample). -/
theorem clear_aborts_and_is_idempotent :
    ∀ s : AppSt,
      (clear s).tts.queue = [] ∧
      (clear s).tts.current = none ∧
      (clear s).tts.playing = false ∧
      (clear s).tts.neutralTimer = false ∧
      (clear s).face.speaking = false ∧
      (clear s).face.phonQueue = [] ∧
      (∀ sh : LipShape, (clear s).face.lipTarget sh = 0) ∧
      (clear s).face.expr = s.face.expr ∧
      (∀ dur : ℚ, onPlaying dur (clear s) = clear s) ∧
      clear (clear s) = clear s := by
  intro s
  exact ⟨rfl, rfl, rfl, rfl, rfl, rfl, fun sh => rfl, rfl, fun dur => rfl, rfl⟩

/-- C3, counterexample to "resets lip/expression state": clearing the queue
while the happy expression is active leaves the happy target at 1, the neutral
target at 0 and the active preset `happy` — the expression state is not reset
(in fact it is bit-for-bit unchanged, see the amended theorem). -/
theorem clear_leaves_expression_untouched :
    (clear playingSt).face.expr.target .happy = 1 ∧
    (clear playingSt).face.expr.target .neutral = 0 ∧
    (clear playingSt).face.expr.active = .happy := by
  refine ⟨?_, ?_, rfl⟩ <;> simp [clear, playingSt, Face.stopSpeaking]

/-- C4: the audio `error` handler and the `play()` rejection handler are the
same state transformation as the natural-completion (`ended`) handler; after
any of them the audio element is released (`current` starts from `none`), the
new current item is the first decodable item of the remaining queue — the
finished/failed item itself is gone and never retried (items whose base64
fails to decode are likewise dropped, not retried) — and the new queue is a
suffix of the old one. -/
theorem playback_failure_handled_like_completion :
    (∀ dk : String → Bool, onAudioError dk = onEnded dk) ∧
    (∀ dk : String → Bool, onPlayFail dk = onEnded dk) ∧
    (∀ (dk : String → Bool) (s : AppSt),
       (onEnded dk s).tts.current =
         (s.tts.queue.dropWhile fun it => !dk it.b64).head? ∧
       (onEnded dk s).tts.queue =
         (s.tts.queue.dropWhile fun it => !dk it.b64).tail ∧
       ((onEnded dk s).tts.queue) <:+ s.tts.queue) := by
  refine ⟨fun dk => rfl, fun dk => rfl, fun dk s => ?_⟩
  have h := playNextAux_eq_dropWhile dk s.tts.neutralTimer none s.tts.queue
    (Face.stopSpeaking s.face)
  have hsuff : (s.tts.queue.dropWhile fun it => !dk it.b64) <:+ s.tts.queue :=
    List.dropWhile_suffix _
  rcases hd : s.tts.queue.dropWhile (fun it => !dk it.b64) with _ | ⟨it, rest⟩ <;>
    rw [hd] at h hsuff <;>
    dsimp only at h <;>
    refine ⟨?_, ?_, ?_⟩ <;>
    (try rw [hd]) <;>
    dsimp only [onEnded] <;>
    rw [h]
  · rfl
  · rfl
  · exact List.nil_suffix
  · rfl
  · rfl
  · exact (List.suffix_cons it rest).trans hsuff

/-- C5: enqueuing a second item while a first is playing appends it to the
queue without starting it — the current audio and the whole face state
(including the expression layer) are untouched at enqueue time — and an item's
emotion is applied only by its OWN `playing` event: `onPlaying` does nothing
when no audio is current, and applies exactly the current item's emotion (then
starts lip sync with the measured duration) when one is. -/
theorem enqueue_while_playing_defers_start_and_emotion :
    (∀ (dk : String → Bool) (it : Item) (s : AppSt), s.tts.playing = true →
       (enqueue dk it s).tts.current = s.tts.current ∧
       (enqueue dk it s).tts.playing = true ∧
       (enqueue dk it s).tts.queue = s.tts.queue ++ [it] ∧
       (enqueue dk it s).face = s.face) ∧
    (∀ (dur : ℚ) (s : AppSt), s.tts.current = none → onPlaying dur s = s) ∧
    (∀ (dur : ℚ) (s : AppSt) (it : Item), s.tts.current = some it →
       (onPlaying dur s).face =
         Face.startSpeaking it.text dur (Face.applyEmotion it.emotion s.face)) := by
  refine ⟨?_, ?_, ?_⟩
  · intro dk it s hp
    have he : enqueue dk it s =
        { s with tts := ⟨s.tts.queue ++ [it], s.tts.playing, s.tts.current, false⟩ } := by
      unfold enqueue
      simp [hp]
    rw [he]
    exact ⟨rfl, hp, rfl, rfl⟩
  · intro dur s h
    unfold onPlaying
    rw [h]
  · intro dur s it h
    unfold onPlaying
    rw [h]

/-- C5, witness: enqueuing `secondItem` while `playingSt` is mid-playback
leaves the current audio and face alone and appends the item to the queue. -/
theorem enqueue_while_playing_defers_start_and_emotion_witness :
    (enqueue (fun _ => true) secondItem playingSt).tts.current = playingSt.tts.current ∧
    (enqueue (fun _ => true) secondItem playingSt).tts.playing = true ∧
    (enqueue (fun _ => true) secondItem playingSt).tts.queue =
      playingSt.tts.queue ++ [secondItem] ∧
    (enqueue (fun _ => true) secondItem playingSt).face = playingSt.face :=
  enqueue_while_playing_defers_start_and_emotion.1 (fun _ => true) secondItem playingSt rfl

/-- C9: `ws._handle` dispatch: a non-`dialogue` message changes nothing; a
dialogue message with audio routes `⟨audio, text, emotion⟩` to the queue and
does NOT touch the expression layer; a dialogue message without audio but with
an emotion applies it directly and enqueues nothing; and an `action` field is
appended to the action playback list whenever present, in every branch. -/
theorem dialogue_dispatch_rules :
    (∀ (dk : String → Bool) (cmd : DialogueMsg) (s : AppSt),
       cmd.type ≠ "dialogue" → wsHandle dk cmd s = s) ∧
    (∀ (dk : String → Bool) (cmd : DialogueMsg) (s : AppSt) (a : String),
       cmd.type = "dialogue" → cmd.audioB64 = some a →
       (wsHandle dk cmd s).tts = (enqueue dk ⟨a, cmd.text.getD [], cmd.emotion⟩ s).tts ∧
       (wsHandle dk cmd s).face.expr = s.face.expr) ∧
    (∀ (dk : String → Bool) (cmd : DialogueMsg) (s : AppSt) (e : String),
       cmd.type = "dialogue" → cmd.audioB64 = none → cmd.emotion = some e →
       (wsHandle dk cmd s).face.expr = Face.setEmotion e s.face.expr ∧
       (wsHandle dk cmd s).tts = s.tts) ∧
    (∀ (dk : String → Bool) (cmd : DialogueMsg) (s : AppSt) (act : String),
       cmd.type = "dialogue" → cmd.action = some act →
       (wsHandle dk cmd s).actions = s.actions ++ [act]) := by
  refine ⟨?_, ?_, ?_, ?_⟩
  · intro dk cmd s ht
    simp [wsHandle, ht]
  · intro dk cmd s a ht ha
    have ht2 : ¬ cmd.type ≠ "dialogue" := by simp [ht]
    unfold wsHandle
    rw [if_neg ht2]
    rcases hact : cmd.action with _ | act <;> simp [ha, enqueue_face_expr]
  · intro dk cmd s e ht ha he
    have ht2 : ¬ cmd.type ≠ "dialogue" := by simp [ht]
    unfold wsHandle
    rw [if_neg ht2]
    rcases hact : cmd.action with _ | act <;> simp [ha, he]
  · intro dk cmd s act ht hact
    have ht2 : ¬ cmd.type ≠ "dialogue" := by simp [ht]
    unfold wsHandle
    rw [if_neg ht2]
    rcases ha : cmd.audioB64 with _ | a <;>
      rcases he : cmd.emotion with _ | e <;>
      simp [hact, enqueue_actions]

/-- C9, witness: the sample dialogue message (text + emotion + audio + action)
appends exactly its action to the action list. -/
theorem dialogue_dispatch_rules_witness :
    (wsHandle (fun _ => true) sampleDialogueCmd emptySt).actions =
      emptySt.actions ++ ["Dance/x.fbx"] :=
  dialogue_dispatch_rules.2.2.2 (fun _ => true) sampleDialogueCmd emptySt "Dance/x.fbx"
    rfl rfl

/-- C10: when the socket is not OPEN, `ws.send` transmits nothing, queues
nothing for later, raises no error, and leaves the state untouched — in the
part_003 build the `clear()` of the audio queue and the `thinking` emotion
that accompany a successful send are skipped as well; the `src/main.js` build
likewise transmits nothing and changes nothing. -/
theorem send_on_closed_socket_is_noop :
    ∀ (text : List Char) (s : AppSt),
      wsSend false text s = (s, []) ∧ mainWsSend false text s = (s, []) := by
  intro text s
  exact ⟨rfl, rfl⟩

/-!
## Helper lemmas about the blink machines
-/

theorem blink3Step_cases (δ nt : ℚ) (s : Blink3)
    (hδ0 : 0 < δ) (hδ1 : δ ≤ 1/20) (hnt : 2 ≤ nt) (hinv : Blink3Inv s) :
    Blink3Inv (blink3Step δ nt s) ∧
    (s.phase = .closing →
      (blink3Step δ nt s).phase = .closing ∨ (blink3Step δ nt s).phase = .opening) ∧
    (s.phase = .opening →
      (blink3Step δ nt s).phase = .opening ∨ (blink3Step δ nt s).phase = .idle) ∧
    (s.phase = .idle →
      (blink3Step δ nt s).phase = .idle ∨ (blink3Step δ nt s).phase = .closing) ∧
    (s.phase ≠ .idle → ¬ (s.timer - δ ≤ 0)) := by
  have hdvd : (2/25 : ℚ) * (δ / (2/25)) = δ := by ring
  rcases hinv with hidle | ⟨hph, hdur, hp0, hp1, ht⟩ | ⟨hph, hdur, hp1, hp2, ht⟩
  · -- idle
    by_cases htr : s.timer - δ ≤ 0
    · have hstep : blink3Step δ nt s = ⟨nt, δ / (2/25), 2/25, .closing⟩ := by
        unfold blink3Step
        dsimp only
        rw [if_pos htr]
        have hlt : ¬ (1 : ℚ) ≤ δ / (2/25) := by
          rw [div_div_eq_mul_div]
          norm_num
          linarith
        simp [hlt]
      rw [hstep]
      refine ⟨Or.inr (Or.inl ⟨rfl, rfl, ?_, ?_, ?_⟩), ?_, ?_, ?_, ?_⟩
      · positivity
      · rw [div_div_eq_mul_div]; norm_num; linarith
      · dsimp only
        rw [hdvd]
        linarith
      · intro h; rw [hidle] at h; exact absurd h (by decide)
      · intro h; rw [hidle] at h; exact absurd h (by decide)
      · intro _; exact Or.inr rfl
      · intro h; exact absurd hidle h
    · have hstep : blink3Step δ nt s = ⟨s.timer - δ, s.prog, s.dur, s.phase⟩ := by
        unfold blink3Step
        dsimp only
        rw [if_neg htr]
        simp [hidle]
      rw [hstep]
      refine ⟨Or.inl hidle, ?_, ?_, ?_, ?_⟩
      · intro h; rw [hidle] at h; exact absurd h (by decide)
      · intro h; rw [hidle] at h; exact absurd h (by decide)
      · intro _; exact Or.inl hidle
      · intro h; exact absurd hidle h
  · -- closing
    have htr : ¬ (s.timer - δ ≤ 0) := by push_neg; linarith
    have hstep : blink3Step δ nt s =
        (if 1 ≤ s.prog + δ / (2/25) then (⟨s.timer - δ, 1, 2/25, .opening⟩ : Blink3)
         else ⟨s.timer - δ, s.prog + δ / (2/25), 2/25, .closing⟩) := by
      unfold blink3Step
      dsimp only
      rw [if_neg htr]
      simp [hph, hdur]
    by_cases hcross : (1 : ℚ) ≤ s.prog + δ / (2/25)
    · rw [hstep, if_pos hcross]
      have hbound : 19/10 ≤ (s.timer - δ) + (2/25) * 1 := by linarith
      refine ⟨Or.inr (Or.inr ⟨rfl, rfl, le_refl 1, by norm_num, hbound⟩),
        fun _ => Or.inr rfl, ?_, ?_, fun _ => htr⟩
      · intro h; rw [hph] at h; exact absurd h (by decide)
      · intro h; rw [hph] at h; exact absurd h (by decide)
    · rw [hstep, if_neg hcross]
      push_neg at hcross
      have hq : (0:ℚ) < δ / (2/25) := by positivity
      have hbound : 39/20 ≤ (s.timer - δ) + (2/25) * (s.prog + δ / (2/25)) := by
        rw [mul_add, hdvd]
        linarith
      refine ⟨Or.inr (Or.inl ⟨rfl, rfl, by linarith, le_of_lt hcross, hbound⟩),
        fun _ => Or.inl rfl, ?_, ?_, fun _ => htr⟩
      · intro h; rw [hph] at h; exact absurd h (by decide)
      · intro h; rw [hph] at h; exact absurd h (by decide)
  · -- opening
    have htr : ¬ (s.timer - δ ≤ 0) := by push_neg; linarith
    have hstep : blink3Step δ nt s =
        (if 2 ≤ s.prog + δ / (2/25) then (⟨s.timer - δ, 0, 2/25, .idle⟩ : Blink3)
         else ⟨s.timer - δ, s.prog + δ / (2/25), 2/25, .opening⟩) := by
      unfold blink3Step
      dsimp only
      rw [if_neg htr]
      simp [hph, hdur]
    by_cases hcross : (2 : ℚ) ≤ s.prog + δ / (2/25)
    · rw [hstep, if_pos hcross]
      refine ⟨Or.inl rfl, ?_, fun _ => Or.inr rfl, ?_, fun _ => htr⟩
      · intro h; rw [hph] at h; exact absurd h (by decide)
      · intro h; rw [hph] at h; exact absurd h (by decide)
    · rw [hstep, if_neg hcross]
      push_neg at hcross
      have hq : (0:ℚ) < δ / (2/25) := by positivity
      have hbound : 19/10 ≤ (s.timer - δ) + (2/25) * (s.prog + δ / (2/25)) := by
        rw [mul_add, hdvd]
        linarith
      refine ⟨Or.inr (Or.inr ⟨rfl, rfl, by linarith, le_of_lt hcross, hbound⟩),
        ?_, fun _ => Or.inl rfl, ?_, fun _ => htr⟩
      · intro h; rw [hph] at h; exact absurd h (by decide)
      · intro h; rw [hph] at h; exact absurd h (by decide)

theorem mainBlinkStep_while_blinking (δ nc : ℚ) (s : BlinkM) (hb : s.blinking = true) :
    (mainBlinkStep δ nc s).phase = s.phase + δ ∧
    ((mainBlinkStep δ nc s).blinking = true ∨ mainBlinkTOTAL ≤ s.phase + δ) := by
  have hcond : ¬ (¬ s.blinking ∧ s.cooldown ≤ s.timer + δ) := by
    rw [hb]; simp
  have hstep : mainBlinkStep δ nc s =
      ⟨s.timer + δ, s.cooldown, s.phase + δ, decide (s.phase + δ < mainBlinkTOTAL)⟩ := by
    unfold mainBlinkStep
    dsimp only
    rw [if_neg hcond]
    simp [hb]
  rw [hstep]
  refine ⟨rfl, ?_⟩
  by_cases h : s.phase + δ < mainBlinkTOTAL
  · exact Or.inl (by simp [h])
  · exact Or.inr (le_of_not_lt h)

/-- C7, amended: in the `part_003` blink machine (render deltas capped at
0.05 s, re-arm intervals ≥ 2 s) a blink in progress can never re-enter
`closing`: the countdown cannot expire mid-blink, each step follows
idle→closing→opening→idle without skipping, and a full cycle spans
`closingDuration + openingDuration` (= 2 × `_blinkDur` = 0.16 s — shown
exactly on a frame delta dividing the windows: triggered at t = 0, the machine
is back to `idle` exactly 4 frames of 0.04 s later, 4 × 0.04 = 0.08 + 0.08).
The `src/main.js` blink also never restarts mid-blink, but its full cycle is
`CLOSE + HOLD + OPEN` = 0.20 s — it holds the eye closed for 0.04 s between
closing and opening, so there the cycle is NOT closing + opening (see the
counterexample). -/
theorem blink_phase_order_and_cycle_duration :
    (∀ (δ nt : ℚ) (s : Blink3), 0 < δ → δ ≤ 1/20 → 2 ≤ nt → Blink3Inv s →
       Blink3Inv (blink3Step δ nt s) ∧
       (s.phase = .closing →
         (blink3Step δ nt s).phase = .closing ∨ (blink3Step δ nt s).phase = .opening) ∧
       (s.phase = .opening →
         (blink3Step δ nt s).phase = .opening ∨ (blink3Step δ nt s).phase = .idle) ∧
       (s.phase = .idle →
         (blink3Step δ nt s).phase = .idle ∨ (blink3Step δ nt s).phase = .closing) ∧
       (s.phase ≠ .idle → ¬ (s.timer - δ ≤ 0))) ∧
    (blink3Step (1/25) 3 ⟨1/25, 0, 2/25, .idle⟩ = ⟨3, 1/2, 2/25, .closing⟩ ∧
     blink3Step (1/25) 3 ⟨3, 1/2, 2/25, .closing⟩ = ⟨74/25, 1, 2/25, .opening⟩ ∧
     blink3Step (1/25) 3 ⟨74/25, 1, 2/25, .opening⟩ = ⟨73/25, 3/2, 2/25, .opening⟩ ∧
     blink3Step (1/25) 3 ⟨73/25, 3/2, 2/25, .opening⟩ = ⟨72/25, 0, 2/25, .idle⟩ ∧
     (4 : ℚ) * (1/25) = 2/25 + 2/25) ∧
    mainBlinkTOTAL = mainBlinkCLOSE + mainBlinkHOLD + mainBlinkOPEN ∧
    (∀ (δ nc : ℚ) (s : BlinkM), s.blinking = true →
       (mainBlinkStep δ nc s).phase = s.phase + δ ∧
       ((mainBlinkStep δ nc s).blinking = true ∨ mainBlinkTOTAL ≤ s.phase + δ)) := by
  refine ⟨blink3Step_cases, ⟨?_, ?_, ?_, ?_, by norm_num⟩, ?_, mainBlinkStep_while_blinking⟩
  · norm_num +decide [blink3Step]
  · norm_num +decide [blink3Step]
  · norm_num +decide [blink3Step]
  · norm_num +decide [blink3Step]
  · norm_num [mainBlinkTOTAL, mainBlinkCLOSE, mainBlinkHOLD, mainBlinkOPEN]

/-- C7, witness: one step of the part_003 machine from a mid-closing state
(timer 3, progress 1/2) with δ = 0.04 preserves the invariant, stays within
closing/opening, and does not let the countdown expire. -/
theorem blink_phase_order_and_cycle_duration_witness :
    Blink3Inv (blink3Step (1/25) 3 ⟨3, 1/2, 2/25, .closing⟩) ∧
    ((⟨3, 1/2, 2/25, .closing⟩ : Blink3).phase = .closing →
      (blink3Step (1/25) 3 ⟨3, 1/2, 2/25, .closing⟩).phase = .closing ∨
      (blink3Step (1/25) 3 ⟨3, 1/2, 2/25, .closing⟩).phase = .opening) ∧
    ((⟨3, 1/2, 2/25, .closing⟩ : Blink3).phase = .opening →
      (blink3Step (1/25) 3 ⟨3, 1/2, 2/25, .closing⟩).phase = .opening ∨
      (blink3Step (1/25) 3 ⟨3, 1/2, 2/25, .closing⟩).phase = .idle) ∧
    ((⟨3, 1/2, 2/25, .closing⟩ : Blink3).phase = .idle →
      (blink3Step (1/25) 3 ⟨3, 1/2, 2/25, .closing⟩).phase = .idle ∨
      (blink3Step (1/25) 3 ⟨3, 1/2, 2/25, .closing⟩).phase = .closing) ∧
    ((⟨3, 1/2, 2/25, .closing⟩ : Blink3).phase ≠ .idle →
      ¬ ((⟨3, 1/2, 2/25, .closing⟩ : Blink3).timer - 1/25 ≤ 0)) :=
  blink_phase_order_and_cycle_duration.1 (1/25) 3 ⟨3, 1/2, 2/25, .closing⟩
    (by norm_num) (by norm_num) (by norm_num)
    (Or.inr (Or.inl (by norm_num [Blink3Inv])))

/-- C7, counterexample to "cycle = closing + opening" against the
`src/main.js` blink: its full cycle `TOTAL = 0.20 s` differs from
`CLOSE + OPEN = 0.16 s` because at phase 0.09 — strictly after the closing
window yet well before the cycle ends — the eyelid is still held fully closed
(the 0.04 s hold phase). -/
theorem main_blink_cycle_has_hold_phase :
    mainBlinkTOTAL ≠ mainBlinkCLOSE + mainBlinkOPEN ∧
    mainBlinkValue (9/100) = 1 ∧
    mainBlinkCLOSE < 9/100 ∧ (9/100 : ℚ) < mainBlinkTOTAL := by
  refine ⟨by norm_num [mainBlinkTOTAL, mainBlinkCLOSE, mainBlinkOPEN], ?_,
    by norm_num [mainBlinkCLOSE], by norm_num [mainBlinkTOTAL]⟩
  norm_num [mainBlinkValue, mainBlinkCLOSE, mainBlinkHOLD, mainBlinkTOTAL]
